import Mathlib

/-!
Shallow embedding of the agent-service HTTP gateway core:
the data model (`types.ts`), the message aggregator and its helpers
(`services/agent-service.ts`), the validation in the chat route handler
(`routes/chat.ts`), and the rate-limit configuration and its wiring
(`middleware` rate-limit config and `createServer`).

JavaScript `unknown` values carried by tool inputs/outputs are modelled by a
type parameter `V`.  Nondeterministic inputs (`Date.now()`, `Math.random()`)
are passed as explicit parameters.  The asynchronous event stream of the
runtime is
modelled as a finite list of events consumed in order, exactly as the
`for await` loop in `AgentService.chat` consumes it.
-/

namespace AgentSvc

/-- Chat message (`types.ts` interface `Message`): the `role` is a string with
runtime values drawn from the union of user, assistant and system; we keep
it as a `String` because the route handler and `buildPrompt` inspect it as a
string at runtime. -/
structure Message where
  role : String
  content : String
deriving DecidableEq, Repr

/-- Tool call record (`types.ts` interface `ToolCallRecord`):
`{name, input, output?, error?}` with `output` of type `unknown` (modelled by
the parameter `V`) and `error` an optional string. -/
structure ToolCallRecord (V : Type) where
  name : String
  input : V
  output : Option V := none
  error : Option String := none
deriving DecidableEq, Repr

/-- Usage estimate carried in a `ChatResponse` (`types.ts`). -/
structure Usage where
  inputTokens : Nat
  outputTokens : Nat
deriving DecidableEq, Repr

/-- Chat response (`types.ts` interface `ChatResponse`): `toolCalls` is an
optional field, set to `none` when the record list would be empty. -/
structure ChatResponse (V : Type) where
  content : String
  toolCalls : Option (List (ToolCallRecord V)) := none
  usage : Usage
  sessionId : String
deriving DecidableEq, Repr

/-- Options accepted by `AgentService.chat` (`agent-service.ts` interface
`ChatOptions`).  Only `sessionId` is read by the captured implementation;
`enableTools` and `skillId` are accepted and ignored. -/
structure ChatOptions where
  sessionId : Option String := none
  enableTools : Option Bool := none
  skillId : Option String := none
deriving DecidableEq, Repr

/-- Events yielded by the asynchronous runtime iterator, as the `for await`
loop in `AgentService.chat` discriminates them by their `type` field:
assistant messages carrying text blocks, `tool_start`, `tool_end`, and any
other message kind, which the loop leaves unhandled. A `tool_end` message
carries `toolName`, an `output` of type `unknown` (possibly absent) and an
optional string `error`. -/
inductive AgentEvent (V : Type) where
  | assistant (texts : List String)
  | toolStart (toolName : String) (input : V)
  | toolEnd (toolName : String) (output : Option V) (error : Option String)
  | other
deriving DecidableEq, Repr

/-- JavaScript truthiness of the optional string `message.error` as tested by
`if (message.error)`: present and non-empty. -/
def errTruthy : Option String → Bool
  | none => false
  | some s => !(s == "")

/-- Mutation performed on the record found by a `tool_end` event
(`agent-service.ts`, body of `if (existingCall)`): if `message.error` is
truthy set `error`, otherwise assign `message.output` to `output`. -/
def applyToolEnd {V : Type} (c : ToolCallRecord V) (out : Option V)
    (err : Option String) : ToolCallRecord V :=
  if errTruthy err then { c with error := err } else { c with output := out }

/-- Effect of a `tool_end` event on the record list
(`toolCalls.find(tc => tc.name === message.toolName)` followed by the in-place
mutation): the first record whose `name` equals the `toolName` of the event is
updated; when no record matches, the list is unchanged. -/
def resolveToolEnd {V : Type} :
    List (ToolCallRecord V) → String → Option V → Option String →
    List (ToolCallRecord V)
  | [], _, _, _ => []
  | c :: rest, n, out, err =>
    if c.name = n then applyToolEnd c out err :: rest
    else c :: resolveToolEnd rest n out err

/-- One iteration of the `for await` loop in `AgentService.chat`, acting on
the loop state `(fullResponse, toolCalls)`. -/
def processEvent {V : Type} (st : String × List (ToolCallRecord V))
    (e : AgentEvent V) : String × List (ToolCallRecord V) :=
  match e with
  | .assistant texts => (texts.foldl (fun acc t => acc ++ t) st.1, st.2)
  | .toolStart n inp => (st.1, st.2 ++ [{ name := n, input := inp }])
  | .toolEnd n out err => (st.1, resolveToolEnd st.2 n out err)
  | .other => st

/-- The whole event-consumption loop of `AgentService.chat`, starting from
an empty `fullResponse` and an empty `toolCalls` list. -/
def runEvents {V : Type} (events : List (AgentEvent V)) :
    String × List (ToolCallRecord V) :=
  events.foldl processEvent ("", [])

/-- Token estimator (`AgentService.estimateTokens`):
`Math.ceil(text.length / 4)`, written in natural-number arithmetic. -/
def estimateTokens (text : String) : Nat :=
  (text.length + 3) / 4

/-- Loop body of `AgentService.buildPrompt`: the `switch (msg.role)` has cases
for exactly the system, user and assistant roles and no default, so any
other role value appends nothing. -/
def buildPromptLoop (prompt : String) : List Message → String
  | [] => prompt
  | msg :: rest =>
    if msg.role = "system" then
      buildPromptLoop (prompt ++ "<system>" ++ msg.content ++ "</system>\n\n") rest
    else if msg.role = "user" then
      buildPromptLoop (prompt ++ "<user>" ++ msg.content ++ "</user>\n\n") rest
    else if msg.role = "assistant" then
      buildPromptLoop (prompt ++ "<assistant>" ++ msg.content ++ "</assistant>\n\n") rest
    else
      buildPromptLoop prompt rest

/-- Source `AgentService.buildPrompt`: accumulate the role-tagged blocks and
trim the result. -/
def buildPrompt (messages : List Message) : String :=
  (buildPromptLoop "" messages).trim

/-- Specification form of the prompt body, used to state the order-preserving
property: one role-tagged delimiter block per message, in input order. -/
def promptBlocksSpec : List Message → String
  | [] => ""
  | msg :: rest =>
    "<" ++ msg.role ++ ">" ++ msg.content ++ ("</" ++ msg.role ++ ">\n\n") ++
      promptBlocksSpec rest

/-- Source `AgentService.generateSessionId`: the template
`` `sess_${Date.now()}_${Math.random().toString(36).substring(2, 11)}` ``,
with the clock reading and the random suffix passed in explicitly. -/
def generateSessionId (now : Nat) (randSuffix : String) : String :=
  "sess_" ++ toString now ++ "_" ++ randSuffix

/-- Session-id resolution in the response object of `AgentService.chat`:
`options.sessionId || this.generateSessionId()`.  JavaScript `||` falls
through on the empty string (falsy) as well as on an absent value. -/
def resolveSessionId (supplied : Option String) (now : Nat)
    (randSuffix : String) : String :=
  match supplied with
  | some s => if s = "" then generateSessionId now randSuffix else s
  | none => generateSessionId now randSuffix

/-- Source `AgentService.chat`: build the prompt, consume the event stream,
estimate usage, and assemble the `ChatResponse` (with `toolCalls` set only
when the list is non-empty). -/
def chat {V : Type} (messages : List Message) (options : ChatOptions)
    (now : Nat) (randSuffix : String) (events : List (AgentEvent V)) :
    ChatResponse V :=
  let prompt := buildPrompt messages
  let st := runEvents events
  { content := st.1
    toolCalls := if st.2.length > 0 then some st.2 else none
    usage := { inputTokens := estimateTokens prompt
               outputTokens := estimateTokens st.1 }
    sessionId := resolveSessionId options.sessionId now randSuffix }

/-- Inbound body of `POST /api/v1/chat` (`types.ts` interface `ChatRequest`). -/
structure ChatRequestBody where
  messages : List Message
  sessionId : Option String := none
  stream : Option Bool := none
  enableTools : Option Bool := none
  skillId : Option String := none
deriving DecidableEq, Repr

/-- Observable outcome of the chat route handler: HTTP status, error envelope
fields when replying with an error, the `ChatResponse` on success, and
whether `agentService.chat` (the runtime call) was invoked. -/
structure HandlerOutcome (V : Type) where
  status : Nat
  errorName : Option String
  errorMessage : Option String
  response : Option (ChatResponse V)
  runtimeCalled : Bool
deriving DecidableEq, Repr

/-- Handler of `POST /api/v1/chat` (`routes/chat.ts`): reject an absent or
empty `messages` array with 400, then reject any message with a falsy (empty)
`role` or `content` with 400, and only otherwise call `agentService.chat`.
The loop over messages returns on the first invalid message; since both exits
produce the same reply, it is rendered with `List.any`.  The Fastify schema
additionally rejects roles outside the enum before the handler runs; the
handler checks alone are modelled here. -/
def chatHandler {V : Type} (body : ChatRequestBody) (now : Nat)
    (randSuffix : String) (events : List (AgentEvent V)) : HandlerOutcome V :=
  if body.messages.isEmpty then
    { status := 400
      errorName := some "Bad Request"
      errorMessage := some "messages array is required and must not be empty"
      response := none
      runtimeCalled := false }
  else if body.messages.any (fun m => m.role == "" || m.content == "") then
    { status := 400
      errorName := some "Bad Request"
      errorMessage := some "Each message must have role and content"
      response := none
      runtimeCalled := false }
  else
    { status := 200
      errorName := none
      errorMessage := none
      response := some (chat body.messages
        { sessionId := body.sessionId
          enableTools := some (body.enableTools != some false)
          skillId := body.skillId } now randSuffix events)
      runtimeCalled := true }

/-- Rate-limit budget: maximum requests per time window, in milliseconds
(shape shared by `rateLimitOptions` and the entries of `rateLimitConfigs`). -/
structure RateLimitSpec where
  max : Nat
  timeWindowMs : Nat
deriving DecidableEq, Repr

/-- Global plugin options (`rateLimitOptions`): `max` and `timeWindow` come
from the environment (`env.rateLimitMaxRequests`, `env.rateLimitWindowMs`,
defaulting to 100 requests per 60000 ms). -/
def rateLimitOptionsGlobal (envMax envWindowMs : Nat) : RateLimitSpec :=
  { max := envMax, timeWindowMs := envWindowMs }

/-- Entry `chat` of `rateLimitConfigs`: 20 requests per minute. -/
def rateLimitConfigsChat : RateLimitSpec :=
  { max := 20, timeWindowMs := 60 * 1000 }

/-- Entry `health` of `rateLimitConfigs`: 100 requests per minute. -/
def rateLimitConfigsHealth : RateLimitSpec :=
  { max := 100, timeWindowMs := 60 * 1000 }

/-- Routes registered by `createServer` under `/api/v1`. -/
inductive RouteId where
  | health
  | healthDetailed
  | ready
  | live
  | chat
  | chatStream
deriving DecidableEq, Repr

/-- Per-route rate-limit override attached at route registration.  In the
source, `createServer` registers the `@fastify/rate-limit` plugin only with
the global `rateLimitOptions`; neither `chatRoutes` nor `healthRoutes` passes
a route-level rate-limit config, and `rateLimitConfigs` is imported in the
server module but never applied.  Hence no route carries an override. -/
def routeRateLimitOverride : RouteId → Option RateLimitSpec :=
  fun _ => none

/-- Effective rate limit governing a route: its registration-time override if
one exists, otherwise the global plugin options. -/
def effectiveRateLimit (envMax envWindowMs : Nat) (r : RouteId) :
    RateLimitSpec :=
  (routeRateLimitOverride r).getD (rateLimitOptionsGlobal envMax envWindowMs)

/-- The `(name, input)` projections of the tool-start events of a stream, in
arrival order; used to state that records correspond one-to-one to starts. -/
def startEvents {V : Type} (events : List (AgentEvent V)) :
    List (String × V) :=
  events.filterMap fun e =>
    match e with
    | .toolStart n inp => some (n, inp)
    | _ => none

/-- Number of `tool_end` events carrying a given tool name. -/
def endCountFor {V : Type} (events : List (AgentEvent V)) (n : String) : Nat :=
  events.countP fun e =>
    match e with
    | .toolEnd m _ _ => m == n
    | _ => false

/-- Tool names of the `tool_end` events of a stream, in arrival order. -/
def endNames {V : Type} (events : List (AgentEvent V)) : List String :=
  events.filterMap fun e =>
    match e with
    | .toolEnd m _ _ => some m
    | _ => none

theorem applyToolEnd_name {V : Type} (c : ToolCallRecord V) (out : Option V)
    (err : Option String) : (applyToolEnd c out err).name = c.name := by
  unfold applyToolEnd
  by_cases h : errTruthy err <;> simp [h]

theorem applyToolEnd_input {V : Type} (c : ToolCallRecord V) (out : Option V)
    (err : Option String) : (applyToolEnd c out err).input = c.input := by
  unfold applyToolEnd
  by_cases h : errTruthy err <;> simp [h]

theorem resolveToolEnd_first_match {V : Type} :
    ∀ (pre : List (ToolCallRecord V)) (c : ToolCallRecord V)
      (post : List (ToolCallRecord V)) (n : String) (out : Option V)
      (err : Option String),
      (∀ r ∈ pre, r.name ≠ n) → c.name = n →
      resolveToolEnd (pre ++ c :: post) n out err =
        pre ++ applyToolEnd c out err :: post := by
  intro pre
  induction pre with
  | nil =>
    intro c post n out err _ hc
    simp [resolveToolEnd, hc]
  | cons p rest ih =>
    intro c post n out err hpre hc
    have hp : p.name ≠ n := hpre p (by simp)
    simp only [List.cons_append, resolveToolEnd, if_neg hp, List.append_eq]
    rw [ih c post n out err (fun r hr => hpre r (by simp [hr])) hc]

theorem resolveToolEnd_no_match {V : Type} :
    ∀ (calls : List (ToolCallRecord V)) (n : String) (out : Option V)
      (err : Option String),
      (∀ r ∈ calls, r.name ≠ n) → resolveToolEnd calls n out err = calls := by
  intro calls
  induction calls with
  | nil => intro n out err _; rfl
  | cons c rest ih =>
    intro n out err h
    have hc : c.name ≠ n := h c (by simp)
    simp only [resolveToolEnd, if_neg hc]
    rw [ih n out err (fun r hr => h r (by simp [hr]))]

theorem resolveToolEnd_mem {V : Type} :
    ∀ (calls : List (ToolCallRecord V)) (n : String) (out : Option V)
      (err : Option String) (r : ToolCallRecord V),
      r ∈ resolveToolEnd calls n out err →
      r ∈ calls ∨ ∃ c ∈ calls, c.name = n ∧ r = applyToolEnd c out err := by
  intro calls
  induction calls with
  | nil => intro n out err r hr; simp [resolveToolEnd] at hr
  | cons c rest ih =>
    intro n out err r hr
    by_cases hc : c.name = n
    · simp only [resolveToolEnd, if_pos hc] at hr
      rcases List.mem_cons.mp hr with h | h
      · exact Or.inr ⟨c, by simp, hc, h⟩
      · exact Or.inl (List.mem_cons.mpr (Or.inr h))
    · simp only [resolveToolEnd, if_neg hc] at hr
      rcases List.mem_cons.mp hr with h | h
      · exact Or.inl (by simp [h])
      · rcases ih n out err r h with h2 | ⟨c2, hc2, hn2, he2⟩
        · exact Or.inl (List.mem_cons.mpr (Or.inr h2))
        · exact Or.inr ⟨c2, List.mem_cons.mpr (Or.inr hc2), hn2, he2⟩

theorem resolveToolEnd_map_key {V : Type} :
    ∀ (calls : List (ToolCallRecord V)) (n : String) (out : Option V)
      (err : Option String),
      (resolveToolEnd calls n out err).map (fun r => (r.name, r.input)) =
        calls.map (fun r => (r.name, r.input)) := by
  intro calls
  induction calls with
  | nil => intro n out err; rfl
  | cons c rest ih =>
    intro n out err
    by_cases hc : c.name = n
    · simp [resolveToolEnd, if_pos hc, applyToolEnd_name, applyToolEnd_input]
    · simp [resolveToolEnd, if_neg hc, ih]



theorem foldl_records_key {V : Type} :
    ∀ (events : List (AgentEvent V)) (st : String × List (ToolCallRecord V)),
      (events.foldl processEvent st).2.map (fun r => (r.name, r.input)) =
        st.2.map (fun r => (r.name, r.input)) ++ startEvents events := by
  intro events
  induction events with
  | nil => intro st; simp [startEvents]
  | cons e rest ih =>
    intro st
    cases e with
    | assistant texts =>
      rw [List.foldl_cons, ih]
      simp [processEvent, startEvents]
    | toolStart n inp =>
      rw [List.foldl_cons, ih]
      simp [processEvent, startEvents]
    | toolEnd n out err =>
      rw [List.foldl_cons, ih]
      simp [processEvent, startEvents, resolveToolEnd_map_key]
    | other =>
      rw [List.foldl_cons, ih]
      simp [processEvent, startEvents]

theorem endCountFor_cons_end {V : Type} (n m : String) (out : Option V)
    (err : Option String) (rest : List (AgentEvent V)) :
    endCountFor (AgentEvent.toolEnd n out err :: rest) m =
      endCountFor rest m + if n = m then 1 else 0 := by
  simp only [endCountFor, List.countP_cons]
  by_cases h : n = m <;> simp [h]

theorem endCountFor_cons_other {V : Type} (e : AgentEvent V) (m : String)
    (rest : List (AgentEvent V))
    (he : ∀ n out err, e ≠ AgentEvent.toolEnd n out err) :
    endCountFor (e :: rest) m = endCountFor rest m := by
  simp only [endCountFor, List.countP_cons]
  cases e with
  | toolEnd n out err => exact absurd rfl (he n out err)
  | assistant texts => simp
  | toolStart n inp => simp
  | other => simp

theorem chat_loop_exclusive {V : Type} :
    ∀ (events : List (AgentEvent V)) (st : String × List (ToolCallRecord V)),
      (∀ n, endCountFor events n ≤ 1) →
      (∀ r ∈ st.2, (r.output = none ∨ r.error = none) ∧
        (¬(r.output = none ∧ r.error = none) → endCountFor events r.name = 0)) →
      ∀ r ∈ (events.foldl processEvent st).2,
        r.output = none ∨ r.error = none := by
  intro events
  induction events with
  | nil =>
    intro st _ hinv r hr
    exact (hinv r hr).1
  | cons e rest ih =>
    intro st hcount hinv
    rw [List.foldl_cons]
    cases e with
    | assistant texts =>
      refine ih _ (fun n => le_trans ?_ (hcount n)) ?_
      · simp [endCountFor, List.countP_cons]
      · intro r hr
        refine ⟨(hinv r hr).1, fun hd => ?_⟩
        have h0 := (hinv r hr).2 hd
        rw [endCountFor_cons_other _ _ _ (by intro n out err h; cases h)] at h0
        exact h0
    | other =>
      refine ih _ (fun n => le_trans ?_ (hcount n)) ?_
      · simp [endCountFor, List.countP_cons]
      · intro r hr
        refine ⟨(hinv r hr).1, fun hd => ?_⟩
        have h0 := (hinv r hr).2 hd
        rw [endCountFor_cons_other _ _ _ (by intro n out err h; cases h)] at h0
        exact h0
    | toolStart n inp =>
      refine ih _ (fun m => le_trans ?_ (hcount m)) ?_
      · simp [endCountFor, List.countP_cons]
      · intro r hr
        simp only [processEvent, List.mem_append, List.mem_singleton] at hr
        rcases hr with hr | hr
        · refine ⟨(hinv r hr).1, fun hd => ?_⟩
          have h0 := (hinv r hr).2 hd
          rw [endCountFor_cons_other _ _ _ (by intro a b c h; cases h)] at h0
          exact h0
        · subst hr
          exact ⟨Or.inl rfl, fun hd => absurd ⟨rfl, rfl⟩ hd⟩
    | toolEnd n out err =>
      have hrest : ∀ m, endCountFor rest m ≤ 1 := by
        intro m
        have := hcount m
        rw [endCountFor_cons_end] at this
        omega
      have hrestn : endCountFor rest n = 0 := by
        have := hcount n
        rw [endCountFor_cons_end] at this
        simp at this
        omega
      refine ih _ hrest ?_
      intro r hr
      simp only [processEvent] at hr
      rcases resolveToolEnd_mem st.2 n out err r hr with hmem | ⟨c, hc, hcn, hre⟩
      · refine ⟨(hinv r hmem).1, fun hd => ?_⟩
        have h0 := (hinv r hmem).2 hd
        rw [endCountFor_cons_end] at h0
        omega
      · -- the matched record must have been fully clean
        have hclean : c.output = none ∧ c.error = none := by
          by_contra hdirty
          have h0 := (hinv c hc).2 hdirty
          rw [hcn, endCountFor_cons_end] at h0
          simp at h0
        subst hre
        refine ⟨?_, fun _ => ?_⟩
        · unfold applyToolEnd
          by_cases he : errTruthy err
          · simp only [if_pos he]
            exact Or.inl (by simp [hclean.1])
          · simp only [if_neg he]
            exact Or.inr (by simp [hclean.2])
        · rw [applyToolEnd_name, hcn]
          exact hrestn

theorem buildPromptLoop_spec :
    ∀ (ms : List Message) (acc : String),
      (∀ m ∈ ms, m.role = "system" ∨ m.role = "user" ∨ m.role = "assistant") →
      buildPromptLoop acc ms = acc ++ promptBlocksSpec ms := by
  intro ms
  induction ms with
  | nil => intro acc _; simp [buildPromptLoop, promptBlocksSpec]
  | cons m rest ih =>
    intro acc h
    have hrest : ∀ x ∈ rest, x.role = "system" ∨ x.role = "user" ∨ x.role = "assistant" :=
      fun x hx => h x (by simp [hx])
    rcases h m (by simp) with hr | hr | hr
    · rw [show buildPromptLoop acc (m :: rest) =
          buildPromptLoop (acc ++ "<system>" ++ m.content ++ "</system>\n\n") rest by
            simp [buildPromptLoop, hr]]
      rw [ih _ hrest]
      rw [promptBlocksSpec, hr]
      rw [show (("<" : String) ++ "system") ++ ">" = "<system>" from rfl]
      rw [show (("</" : String) ++ "system") ++ ">\n\n" = "</system>\n\n" from rfl]
      simp [String.append_assoc]
    · rw [show buildPromptLoop acc (m :: rest) =
          buildPromptLoop (acc ++ "<user>" ++ m.content ++ "</user>\n\n") rest by
            simp [buildPromptLoop, hr]]
      rw [ih _ hrest]
      rw [promptBlocksSpec, hr]
      rw [show (("<" : String) ++ "user") ++ ">" = "<user>" from rfl]
      rw [show (("</" : String) ++ "user") ++ ">\n\n" = "</user>\n\n" from rfl]
      simp [String.append_assoc]
    · rw [show buildPromptLoop acc (m :: rest) =
          buildPromptLoop (acc ++ "<assistant>" ++ m.content ++ "</assistant>\n\n") rest by
            simp [buildPromptLoop, hr]]
      rw [ih _ hrest]
      rw [promptBlocksSpec, hr]
      rw [show (("<" : String) ++ "assistant") ++ ">" = "<assistant>" from rfl]
      rw [show (("</" : String) ++ "assistant") ++ ">\n\n" = "</assistant>\n\n" from rfl]
      simp [String.append_assoc]

theorem endCountFor_eq_count {V : Type} :
    ∀ (events : List (AgentEvent V)) (n : String),
      endCountFor events n = (endNames events).count n := by
  intro events
  induction events with
  | nil => intro n; rfl
  | cons e rest ih =>
    intro n
    cases e with
    | toolEnd m out err =>
      simp only [endCountFor, endNames, List.countP_cons, List.filterMap_cons,
        List.count_cons]
      congr 1
      simpa [endCountFor, endNames] using ih n
    | assistant texts =>
      simp only [endCountFor, endNames, List.countP_cons, List.filterMap_cons]
      simpa [endCountFor, endNames] using ih n
    | toolStart a b =>
      simp only [endCountFor, endNames, List.countP_cons, List.filterMap_cons]
      simpa [endCountFor, endNames] using ih n
    | other =>
      simp only [endCountFor, endNames, List.countP_cons, List.filterMap_cons]
      simpa [endCountFor, endNames] using ih n

/-- C1 counterexample: on the event sequence of the claim, the second end
event re-targets the already-resolved first record instead of the open second
one: the first record ends with both fields set and the second stays open. -/
theorem toolEnd_pairing_not_fifo_by_name :
    (runEvents (V := Nat) [.toolStart "A" 1, .toolStart "A" 2,
        .toolEnd "A" (some 10) none, .toolEnd "A" none (some "boom")]).2 =
      [{ name := "A", input := 1, output := some 10, error := some "boom" },
       { name := "A", input := 2 }] ∧
    ¬ ((runEvents (V := Nat) [.toolStart "A" 1, .toolStart "A" 2,
        .toolEnd "A" (some 10) none, .toolEnd "A" none (some "boom")]).2.map
          (fun r => r.error) = [none, some "boom"]) := by
  decide

/-- C1 amended: each tool-end event mutates the first record in the list whose
name matches, whether or not that record is already resolved; for the claimed
event shape both ends hit the first record, which accumulates output and then
error, while the second record remains unresolved. -/
theorem toolEnd_rematches_first_record {V : Type} (n : String) (i1 i2 o1 : V)
    (e2 : String) (h : e2 ≠ "") :
    (runEvents [.toolStart n i1, .toolStart n i2,
        .toolEnd n (some o1) none, .toolEnd n none (some e2)]).2 =
      [{ name := n, input := i1, output := some o1, error := some e2 },
       { name := n, input := i2 }] := by
  simp [runEvents, List.foldl, processEvent, resolveToolEnd, applyToolEnd,
    errTruthy, h]

/-- Witness for the amended C1 theorem at a concrete input. -/
theorem toolEnd_rematches_first_record_witness :
    (runEvents (V := Nat) [.toolStart "W" 7, .toolStart "W" 8,
        .toolEnd "W" (some 42) none, .toolEnd "W" none (some "late")]).2 =
      [{ name := "W", input := 7, output := some 42, error := some "late" },
       { name := "W", input := 8 }] :=
  toolEnd_rematches_first_record "W" 7 8 42 "late" (by decide)

/-- C2 counterexample: a record matched by two end events ends with output and
error both set, violating the exclusivity invariant. -/
theorem record_with_output_and_error_both_set :
    (runEvents (V := Nat) [.toolStart "A" 1, .toolEnd "A" (some 10) none,
        .toolEnd "A" none (some "boom")]).2 =
      [{ name := "A", input := 1, output := some 10, error := some "boom" }] ∧
    ¬ (∀ r ∈ (runEvents (V := Nat) [.toolStart "A" 1,
        .toolEnd "A" (some 10) none, .toolEnd "A" none (some "boom")]).2,
        r.output = none ∨ r.error = none) := by
  constructor
  · decide
  · decide

/-- C2 amended: a single end event sets at most one of the two fields, so as
long as no tool name carries two tool-end events in the stream, every record
in the final list has at most one of output and error set. -/
theorem record_fields_exclusive_of_unique_ends {V : Type}
    (events : List (AgentEvent V)) (h : (endNames events).Nodup) :
    ∀ r ∈ (runEvents events).2, r.output = none ∨ r.error = none := by
  have hcount : ∀ n, endCountFor events n ≤ 1 := by
    intro n
    rw [endCountFor_eq_count]
    exact List.nodup_iff_count_le_one.mp h n
  refine chat_loop_exclusive events ("", []) hcount ?_
  intro r hr
  simp at hr

/-- Witness for the amended C2 theorem at a concrete input: the record
produced for tool A in a stream with one end per name has its error unset. -/
theorem record_fields_exclusive_of_unique_ends_witness :
    ({ name := "A", input := 1, output := some 10, error := none } :
        ToolCallRecord Nat).output = none ∨
    ({ name := "A", input := 1, output := some 10, error := none } :
        ToolCallRecord Nat).error = none :=
  record_fields_exclusive_of_unique_ends
    [.toolStart "A" 1, .toolStart "B" 2, .toolEnd "A" (some 10) none,
      .toolEnd "B" none (some "boom")] (by decide)
    { name := "A", input := 1, output := some 10, error := none } (by decide)

/-- C3 counterexample: after `[start(B), end(B)]` no open record named B
remains, yet a further end event for B is not dropped: it mutates the
already-resolved record. -/
theorem late_end_mutates_closed_record :
    (∀ r ∈ (runEvents (V := Nat) [.toolStart "B" 5,
        .toolEnd "B" (some 6) none]).2, ¬ (r.output = none ∧ r.error = none)) ∧
    processEvent (runEvents (V := Nat) [.toolStart "B" 5,
        .toolEnd "B" (some 6) none]) (.toolEnd "B" none (some "late")) ≠
      runEvents (V := Nat) [.toolStart "B" 5, .toolEnd "B" (some 6) none] := by
  constructor
  · decide
  · decide

/-- C3 amended: a tool-end event whose name matches no record at all (open or
resolved) is dropped: it raises nothing, adds no record, and leaves the state
unchanged. -/
theorem toolEnd_without_name_match_is_noop {V : Type}
    (st : String × List (ToolCallRecord V)) (n : String) (out : Option V)
    (err : Option String) (h : ∀ r ∈ st.2, r.name ≠ n) :
    processEvent st (.toolEnd n out err) = st := by
  simp only [processEvent]
  rw [resolveToolEnd_no_match st.2 n out err h]

/-- Witness for the amended C3 theorem at a concrete input. -/
theorem toolEnd_without_name_match_is_noop_witness :
    processEvent (V := Nat) ("txt", [{ name := "B", input := 5 }])
        (.toolEnd "C" (some 6) none) =
      ("txt", [{ name := "B", input := 5 }]) :=
  toolEnd_without_name_match_is_noop ("txt", [{ name := "B", input := 5 }])
    "C" (some 6) none (by decide)

/-- C9: when a tool-end event carries a non-empty error, the matched record
gets exactly its error field set; its output field is not touched (so the
output of an open record remains unset), even if the event also carries an output. -/
theorem errored_end_sets_only_error {V : Type}
    (pre : List (ToolCallRecord V)) (c : ToolCallRecord V)
    (post : List (ToolCallRecord V)) (n : String) (out : Option V) (s : String)
    (hpre : ∀ r ∈ pre, r.name ≠ n) (hc : c.name = n) (hs : s ≠ "") :
    resolveToolEnd (pre ++ c :: post) n out (some s) =
      pre ++ { c with error := some s } :: post := by
  rw [resolveToolEnd_first_match pre c post n out (some s) hpre hc]
  simp [applyToolEnd, errTruthy, hs]

/-- Witness for the C9 theorem: an open record matched by an end event that
carries both an output value and a non-empty error receives only the error;
its output stays unset. -/
theorem errored_end_sets_only_error_witness :
    resolveToolEnd (V := Nat) [{ name := "T", input := 3 }] "T" (some 99)
        (some "fail") =
      [{ name := "T", input := 3, output := none, error := some "fail" }] :=
  errored_end_sets_only_error [] { name := "T", input := 3 } [] "T" (some 99)
    "fail" (by simp) rfl (by decide)

/-- C4 counterexample: a caller-supplied empty-string session id is not echoed
back; JavaScript `||` treats it as falsy and a fresh id is minted instead. -/
theorem empty_supplied_sessionId_not_echoed :
    (chat (V := Nat) [{ role := "user", content := "hi" }]
        { sessionId := some "" } 1700 "abc" []).sessionId = "sess_1700_abc" ∧
    (chat (V := Nat) [{ role := "user", content := "hi" }]
        { sessionId := some "" } 1700 "abc" []).sessionId ≠ "" := by
  constructor
  · rfl
  · decide

/-- C4 amended: a caller-supplied non-empty session id is echoed unchanged and
unvalidated; when the session id is absent or the empty string, the response
carries the freshly minted `sess_<timestamp>_<random suffix>` id. -/
theorem sessionId_echoed_unless_falsy {V : Type} (messages : List Message)
    (o : ChatOptions) (now : Nat) (rand : String)
    (events : List (AgentEvent V)) :
    (∀ s, o.sessionId = some s → s ≠ "" →
      (chat messages o now rand events).sessionId = s) ∧
    (o.sessionId = none ∨ o.sessionId = some "" →
      (chat messages o now rand events).sessionId =
        "sess_" ++ toString now ++ "_" ++ rand) := by
  constructor
  · intro s hs hne
    simp [chat, resolveSessionId, hs, hne]
  · intro h
    rcases h with h | h <;>
      simp [chat, resolveSessionId, generateSessionId, h]

/-- Witness for the amended C4 theorem at concrete inputs, one per branch. -/
theorem sessionId_echoed_unless_falsy_witness :
    (chat (V := Nat) [] { sessionId := some "s1" } 5 "r" []).sessionId = "s1" ∧
    (chat (V := Nat) [] { } 5 "r" []).sessionId = "sess_5_r" :=
  ⟨(sessionId_echoed_unless_falsy [] { sessionId := some "s1" } 5 "r" []).1
      "s1" rfl (by decide),
    (sessionId_echoed_unless_falsy [] { } 5 "r" []).2 (Or.inl rfl)⟩

/-- C5: no route registration carries a rate-limit override, so every route,
the chat route included, is governed by the global plugin budget; the stricter
`rateLimitConfigs.chat` budget (20 per minute) is never in effect. -/
theorem chat_route_governed_by_global_limit_only :
    (∀ envMax envWindowMs r, effectiveRateLimit envMax envWindowMs r =
      rateLimitOptionsGlobal envMax envWindowMs) ∧
    rateLimitConfigsChat.max = 20 ∧
    effectiveRateLimit 100 60000 RouteId.chat ≠ rateLimitConfigsChat ∧
    effectiveRateLimit 100 60000 RouteId.health =
      rateLimitOptionsGlobal 100 60000 := by
  refine ⟨fun a b r => rfl, rfl, by decide, rfl⟩

/-- C6: a chat payload with an empty messages list, or containing a message
with empty role or empty content, is rejected with status 400, yields no
response body, and never invokes the runtime. -/
theorem invalid_chat_body_rejected_before_runtime {V : Type}
    (body : ChatRequestBody) (now : Nat) (rand : String)
    (events : List (AgentEvent V))
    (h : body.messages = [] ∨ ∃ m ∈ body.messages,
      m.role = "" ∨ m.content = "") :
    (chatHandler body now rand events).status = 400 ∧
    (chatHandler body now rand events).runtimeCalled = false ∧
    (chatHandler body now rand events).response = none := by
  by_cases hemp : body.messages.isEmpty
  · simp [chatHandler, hemp]
  · rcases h with h | ⟨m, hm, hrc⟩
    · exact absurd (by simp [h]) hemp
    · have hany : body.messages.any
          (fun m => m.role == "" || m.content == "") = true := by
        refine List.any_eq_true.mpr ⟨m, hm, ?_⟩
        rcases hrc with h2 | h2 <;> simp [h2]
      simp [chatHandler, hemp, hany]

/-- Witness for the C6 theorem: the empty messages array is rejected with 400
and the runtime is not called. -/
theorem invalid_chat_body_rejected_before_runtime_witness :
    (chatHandler (V := Nat) { messages := [] } 0 "r" []).status = 400 ∧
    (chatHandler (V := Nat) { messages := [] } 0 "r" []).runtimeCalled
      = false ∧
    (chatHandler (V := Nat) { messages := [] } 0 "r" []).response = none :=
  invalid_chat_body_rejected_before_runtime { messages := [] } 0 "r" []
    (Or.inl rfl)

/-- C7: for messages whose roles come from the closed set, the built prompt is
the trimmed concatenation of exactly one role-tagged delimiter block per
message, in input order, each tag being the role of that message around its
content. -/
theorem buildPrompt_order_preserving (messages : List Message)
    (h : ∀ m ∈ messages,
      m.role = "system" ∨ m.role = "user" ∨ m.role = "assistant") :
    buildPrompt messages = (promptBlocksSpec messages).trim := by
  unfold buildPrompt
  rw [buildPromptLoop_spec messages "" h]
  simp

/-- Witness for the C7 theorem at a concrete three-message history. -/
theorem buildPrompt_order_preserving_witness :
    buildPrompt [{ role := "system", content := "be nice" },
        { role := "user", content := "hi" },
        { role := "assistant", content := "hello" }] =
      (promptBlocksSpec [{ role := "system", content := "be nice" },
        { role := "user", content := "hi" },
        { role := "assistant", content := "hello" }]).trim :=
  buildPrompt_order_preserving _ (by decide)

/-- Helper: ceiling of a natural number divided by four, as natural-number
arithmetic. -/
theorem ceil_quarter (n : ℕ) : ⌈(n : ℚ) / 4⌉₊ = (n + 3) / 4 := by
  rcases Nat.eq_zero_or_pos n with h0 | hpos
  · subst h0; simp
  · have hd : (n + 3) / 4 ≠ 0 := by omega
    rw [Nat.ceil_eq_iff hd]
    constructor
    · rw [lt_div_iff₀ (by norm_num : (0:ℚ) < 4)]
      have h2 : ((n + 3) / 4 - 1) * 4 < n := by omega
      exact_mod_cast h2
    · rw [div_le_iff₀ (by norm_num : (0:ℚ) < 4)]
      have h2 : n ≤ ((n + 3) / 4) * 4 := by omega
      exact_mod_cast h2

/-- C8: the token estimator is deterministic, maps the empty string to zero,
and equals the character length divided by four rounded up. -/
theorem estimateTokens_is_ceil_div_four :
    estimateTokens "" = 0 ∧
    ∀ text : String, estimateTokens text = ⌈(text.length : ℚ) / 4⌉₊ := by
  refine ⟨rfl, fun text => ?_⟩
  rw [ceil_quarter text.length]
  rfl

/-- C10: the final record list holds exactly one record per tool-start event,
keyed and ordered by the starts (so end events neither add nor remove
records), and the response omits the list exactly when no start occurred. -/
theorem toolCalls_one_record_per_start {V : Type} (messages : List Message)
    (options : ChatOptions) (now : Nat) (rand : String)
    (events : List (AgentEvent V)) :
    (runEvents events).2.map (fun r => (r.name, r.input)) =
      startEvents events ∧
    ((chat messages options now rand events).toolCalls = none ↔
      startEvents events = []) := by
  have hmap : (runEvents events).2.map (fun r => (r.name, r.input)) =
      startEvents events := by
    simpa [runEvents] using foldl_records_key events ("", [])
  have hlen : (runEvents events).2.length = (startEvents events).length := by
    rw [← hmap, List.length_map]
  refine ⟨hmap, ?_⟩
  have hchat : (chat messages options now rand events).toolCalls =
      (if (runEvents events).2.length > 0 then some (runEvents events).2
        else none) := rfl
  rw [hchat]
  by_cases hpos : (runEvents events).2.length > 0
  · rw [if_pos hpos]
    constructor
    · intro h; cases h
    · intro h
      rw [h] at hlen
      simp at hlen
      simp [hlen] at hpos
  · rw [if_neg hpos]
    have h0 : (startEvents events).length = 0 := by omega
    simp [List.length_eq_zero.mp h0]

end AgentSvc
